import Mathlib

/-!
# Verification of the monty random-number core

A shallow embedding of the random-number headers of the repository
(`inst/include/monty/random/*.hpp`, `inst/include/monty/r/random.hpp`).

Modelling conventions:
* The C++ `real_type` (a floating-point template parameter) is embedded as `ℚ`
  with exact arithmetic; transcendental operations from `monty/random/math.hpp`
  (a header not present in this source tree) are abstracted as fields of a
  `MathEnv` record, exactly as the C++ code is generic in them.
* Machine integers are `ℕ` with explicit truncation (`% 2 ^ w`, `>>> k`)
  where the C++ casts or shifts.
* The generator (`generator.hpp`, also absent) is abstracted, following the
  spec, as a stream of uniform draws indexed by a position counter.
* Host/device duality of `monty::utils::fatal_error` is an explicit `Backend`
  parameter; errors are values of `MontyError`.
* The unbounded rejection loops (`gamma_large`, Box–Muller) are embedded with
  a fuel parameter returning `Option`: `none` means the loop is still running
  after `fuel` iterations; no default value is ever fabricated.
-/

namespace monty

/-- Compilation backend: host (gcc/clang, exceptions available) or device
(`__CUDA_ARCH__`, no exceptions, only `__trap()`). -/
inductive Backend where
  | host
  | device
deriving DecidableEq, Repr

/-- Errors surfaced by the embedded code.  `domainError` stands for a thrown
`std::runtime_error` on the host; `fatalTrap` for the `printf` + `__trap()`
abort on the device. -/
inductive MontyError where
  | domainError (msg : String)
  | fatalTrap (msg : String)
deriving DecidableEq, Repr

/-- `monty::utils::fatal_error` from `cuda_compatibility.hpp`: under
`__CUDA_ARCH__` it prints and traps, otherwise it throws
`std::runtime_error(message)`. -/
def fatal_error (b : Backend) (message : String) : MontyError :=
  match b with
  | .host => .domainError message
  | .device => .fatalTrap message

/-- Modelled from the spec: one generator stream.  `generator.hpp` is not in
this source tree; per the spec a generator state yields a sequence of uniform
reals strictly inside (0,1) (raw integers put through the `UniformSampler`),
so the state is embedded as the whole draw sequence `stream` plus the
position `pos` of the next draw.  The `deterministic` flag is the one on
`xoshiro_state` (`xoshiro_state.hpp`). -/
structure RngState where
  stream : ℕ → ℚ
  pos : ℕ
  deterministic : Bool

/-- Modelled from the spec: `random_real<real_type>(rng_state)` (from the
absent `generator.hpp`) returns the next uniform draw of the stream and
advances the state by one draw. -/
def random_real (s : RngState) : ℚ × RngState :=
  (s.stream s.pos, { s with pos := s.pos + 1 })

/-! ## `utils.hpp`: `int_to_real`

The C++ defines four template specialisations computing in IEEE-754 binary64
(`double`, 53 significand bits) and binary32 (`float`, 24 significand bits)
arithmetic, so every operation rounds its exact result to the nearest
representable value, ties to even.  The embedding makes that rounding
explicit: `roundNearestEven p q` rounds the exact rational `q` to `p`
significand bits with an unbounded exponent range — faithful here because
every value arising in these expressions is far from the
overflow/underflow thresholds of both formats.

The macro constants are the decimal literals
`TWOPOW53_INV_DOUBLE = 1.1102230246251565e-16` (the double exactly
`2 ^ (-53)`), `TWOPOW32_INV_DOUBLE = 2.3283064365386963e-10` (the double
exactly `2 ^ (-32)`) and the float `TWOPOW32_INV = 2.3283064e-10f` (which
rounds to exactly `2 ^ (-32)` in single precision); they are embedded by
those exact values. -/

/-- Round a rational to the nearest integer, ties to even. -/
def rnInt (x : ℚ) : ℤ :=
  let n := ⌊x⌋
  let f := x - n
  if f < 1 / 2 then n
  else if 1 / 2 < f then n + 1
  else if Even n then n else n + 1

/-- IEEE-754 round-to-nearest, ties-to-even, at `p` significand bits with
unbounded exponent: scale `q` so that its significand becomes an integer in
`[2 ^ (p-1), 2 ^ p)`, round that integer to nearest-even, and scale back. -/
def roundNearestEven (p : ℕ) (q : ℚ) : ℚ :=
  if q = 0 then 0
  else
    let e : ℤ := Int.log 2 |q| - ((p : ℤ) - 1)
    (rnInt (q / 2 ^ e) : ℚ) * 2 ^ e

/-- One binary64 (`double`) rounding. -/
def fl64 (q : ℚ) : ℚ := roundNearestEven 53 q

/-- One binary32 (`float`) rounding. -/
def fl32 (q : ℚ) : ℚ := roundNearestEven 24 q

def TWOPOW32_INV : ℚ := 1 / 2 ^ 32

def TWOPOW32_INV_DOUBLE : ℚ := 1 / 2 ^ 32

def TWOPOW53_INV_DOUBLE : ℚ := 1 / 2 ^ 53

/-- `double int_to_real(uint64_t x)`:
`(x >> 11) * TWOPOW53_INV_DOUBLE + (TWOPOW53_INV_DOUBLE / 2.0)`.
The `uint64_t`-to-`double` conversion, the multiplication, the constant
division and the addition each round in binary64. -/
def int_to_real_double_uint64 (x : ℕ) : ℚ :=
  fl64 (fl64 (fl64 ((x >>> 11 : ℕ) : ℚ) * TWOPOW53_INV_DOUBLE) +
    fl64 (TWOPOW53_INV_DOUBLE / 2))

/-- `double int_to_real(uint32_t x)`:
`x * TWOPOW32_INV_DOUBLE + (TWOPOW32_INV_DOUBLE / 2.0)`, each operation
rounding in binary64. -/
def int_to_real_double_uint32 (x : ℕ) : ℚ :=
  fl64 (fl64 (fl64 (x : ℚ) * TWOPOW32_INV_DOUBLE) +
    fl64 (TWOPOW32_INV_DOUBLE / 2))

/-- `float int_to_real(uint64_t x)`:
`uint32_t t = (uint32_t)(x >> 32); t * TWOPOW32_INV + (TWOPOW32_INV / 2.0f)`.
The cast truncates to 32 bits; the `uint32_t`-to-`float` conversion, the
multiplication, the constant division and the addition each round in
binary32. -/
def int_to_real_float_uint64 (x : ℕ) : ℚ :=
  let t : ℕ := (x >>> 32) % 2 ^ 32
  fl32 (fl32 (fl32 (t : ℚ) * TWOPOW32_INV) + fl32 (TWOPOW32_INV / 2))

/-- `float int_to_real(uint32_t x)`:
`x * TWOPOW32_INV + (TWOPOW32_INV / 2.0f)`, each operation rounding in
binary32. -/
def int_to_real_float_uint32 (x : ℕ) : ℚ :=
  fl32 (fl32 (fl32 (x : ℚ) * TWOPOW32_INV) + fl32 (TWOPOW32_INV / 2))

/-! ## Abstract mathematical operations

`monty/random/math.hpp`, `normal.hpp` and `exponential.hpp` are not in this
source tree; the samplers are generic in `real_type` and call
`monty::math::log`, `sqrt`, `pow`, `cos`, `tan`, the constant `M_PI`, the
machine `epsilon` (`utils::epsilon<real_type>()`), the standard-normal
sampler `normal<real_type>(rng_state, 0, 1)` and `exponential_mean`.
These are abstracted as a record of operations, quantified over in the
theorems. -/
structure MathEnv where
  log : ℚ → ℚ
  sqrt : ℚ → ℚ
  pow : ℚ → ℚ → ℚ
  cos : ℚ → ℚ
  tan : ℚ → ℚ
  pi : ℚ
  epsilon : ℚ
  /-- Modelled from the spec: a standard-normal draw `normal(rng_state, 0, 1)`
  (`normal.hpp` is absent); it consumes draws from the state. -/
  normal01 : RngState → ℚ × RngState
  /-- Modelled from the spec: `exponential_mean(rng_state, scale)`, an
  exponential draw with the given mean (`exponential.hpp` is absent). -/
  exponentialMean : RngState → ℚ → ℚ × RngState

/-! ## `cauchy.hpp`

```
template <typename real_type, typename rng_state_type>
real_type cauchy(rng_state_type& rng_state, real_type location, real_type scale) {
#ifndef __CUDA_ARCH__
  if (rng_state.deterministic) {
    throw std::runtime_error("...deterministic Cauchy...");
  }
#endif
  const real_type u = random_real<real_type>(rng_state);
  return location + scale * monty::math::tan<real_type>(static_cast<real_type>(M_PI) * u);
}
```
The deterministic check is compiled only when `__CUDA_ARCH__` is not
defined, i.e. only on the host backend. -/
def cauchy (b : Backend) (env : MathEnv) (s : RngState)
    (location scale : ℚ) : Except MontyError (ℚ × RngState) :=
  match b, s.deterministic with
  | .host, true =>
      .error (.domainError
        "Cannot use Cauchy distribution deterministically; it has no mean")
  | .host, false =>
      let u := random_real s
      .ok (location + scale * env.tan (env.pi * u.1), u.2)
  | .device, _ =>
      let u := random_real s
      .ok (location + scale * env.tan (env.pi * u.1), u.2)

/-! ## `gamma.hpp`

Marsaglia–Tsang gamma sampling.  The unbounded `while (true)` rejection loop
is embedded with a fuel parameter: `none` means no iteration accepted within
`fuel` rounds (the loop is still running); the code itself has no cap. -/

/-- `gamma_validate(shape, scale)`: calls `monty::utils::fatal_error` when
`shape < 0.0 || scale < 0.0`.  The `snprintf` message text is kept as the
format string. -/
def gamma_validate (b : Backend) (shape scale : ℚ) : Except MontyError Unit :=
  if shape < 0 ∨ scale < 0 then
    .error (fatal_error b "Invalid call to gamma with shape = %g, scale = %g")
  else
    .ok ()

/-- The body of `gamma_large`'s `while (true)` loop, with the loop-invariant
constants `d` and `c` already computed.  Each iteration: draw a standard
normal `x`; `v_cbrt = 1 + c * x`; if `v_cbrt <= 0` continue; otherwise
`v = v_cbrt^3`, draw a uniform `u`, and accept when
`u < 1 - 0.0331 * x_sqr * x_sqr` or
`log(u) < 0.5 * x_sqr + d * (1 - v + log(v))`, returning `d * v`. -/
def gamma_large_iter (env : MathEnv) (d c : ℚ) :
    ℕ → RngState → Option (ℚ × RngState)
  | 0, _ => none
  | fuel + 1, s =>
    let xs := env.normal01 s
    let x := xs.1
    let v_cbrt := 1 + c * x
    if v_cbrt ≤ 0 then
      gamma_large_iter env d c fuel xs.2
    else
      let v := v_cbrt * v_cbrt * v_cbrt
      let us := random_real xs.2
      let u := us.1
      let x_sqr := x * x
      if u < 1 - 0.0331 * x_sqr * x_sqr ∨
          env.log u < 0.5 * x_sqr + d * (1 - v + env.log v) then
        some (d * v, us.2)
      else
        gamma_large_iter env d c fuel us.2

/-- `gamma_large(rng_state, shape)`: `d = shape - 1/3`,
`c = 1/sqrt(9*d)`, then the rejection loop. -/
def gamma_large (env : MathEnv) (fuel : ℕ) (s : RngState) (shape : ℚ) :
    Option (ℚ × RngState) :=
  let d := shape - 1 / 3
  let c := 1 / env.sqrt (9 * d)
  gamma_large_iter env d c fuel s

/-- `gamma_small(rng_state, shape)`: `inv_shape = 1/shape`; draw a uniform
`u`; return `gamma_large(rng_state, shape + 1.0) * pow(u, inv_shape)`. -/
def gamma_small (env : MathEnv) (fuel : ℕ) (s : RngState) (shape : ℚ) :
    Option (ℚ × RngState) :=
  let inv_shape := 1 / shape
  let us := random_real s
  match gamma_large env fuel us.2 (shape + 1) with
  | none => none
  | some gs => some (gs.1 * env.pow us.1 inv_shape, gs.2)

/-- `gamma_deterministic(shape, scale) = shape * scale`. -/
def gamma_deterministic (shape scale : ℚ) : ℚ :=
  shape * scale

/-- `gamma_scale(rng_state, shape, scale)`: validate; `0` when
`shape == 0 || scale == 0`; the deterministic expectation when
`rng_state.deterministic`; `gamma_small * scale` when `shape < 1`;
`exponential_mean(rng_state, scale)` when `shape == 1`;
`gamma_large * scale` otherwise. -/
def gamma_scale (b : Backend) (env : MathEnv) (fuel : ℕ) (s : RngState)
    (shape scale : ℚ) : Except MontyError (Option (ℚ × RngState)) :=
  match gamma_validate b shape scale with
  | .error e => .error e
  | .ok _ =>
    if shape = 0 ∨ scale = 0 then
      .ok (some (0, s))
    else if s.deterministic then
      .ok (some (gamma_deterministic shape scale, s))
    else if shape < 1 then
      .ok ((gamma_small env fuel s shape).map fun p => (p.1 * scale, p.2))
    else if shape = 1 then
      .ok (some (env.exponentialMean s scale))
    else
      .ok ((gamma_large env fuel s shape).map fun p => (p.1 * scale, p.2))

/-- `gamma_rate(rng_state, shape, rate)`: `scale = 1/rate`, validate on the
derived scale, then `gamma_scale`. -/
def gamma_rate (b : Backend) (env : MathEnv) (fuel : ℕ) (s : RngState)
    (shape rate : ℚ) : Except MontyError (Option (ℚ × RngState)) :=
  let scale := 1 / rate
  match gamma_validate b shape scale with
  | .error e => .error e
  | .ok _ => gamma_scale b env fuel s shape scale

/-! ## `normal_box_muller.hpp` -/

/-- `random_normal_box_muller(rng_state)`: a `do { u1 = draw; u2 = draw }
while (u1 <= epsilon)` loop, then
`sqrt(-2 * log(u1)) * cos(two_pi * u2)`.  Both uniforms are redrawn on every
iteration of the do-while.  Fuel-indexed as for `gamma_large`. -/
def random_normal_box_muller (env : MathEnv) :
    ℕ → RngState → Option (ℚ × RngState)
  | 0, _ => none
  | fuel + 1, s =>
    let u1 := random_real s
    let u2 := random_real u1.2
    if u1.1 ≤ env.epsilon then
      random_normal_box_muller env fuel u2.2
    else
      some (env.sqrt (-2 * env.log u1.1) * env.cos (2 * env.pi * u2.1), u2.2)

/-- Follows the claim's words, not the source: draw `U1`, rejecting and
redrawing `U1` alone while `U1 <= epsilon`; only then draw `U2` once; return
`sqrt(-2 * log(U1)) * cos(2 * pi * U2)`.  Kept for comparison with
`random_normal_box_muller`. -/
def box_muller_claim_model (env : MathEnv) :
    ℕ → RngState → Option (ℚ × RngState)
  | 0, _ => none
  | fuel + 1, s =>
    let u1 := random_real s
    if u1.1 ≤ env.epsilon then
      box_muller_claim_model env fuel u1.2
    else
      let u2 := random_real u1.2
      some (env.sqrt (-2 * env.log u1.1) * env.cos (2 * env.pi * u2.1), u2.2)

/-! ## `r/random.hpp`: `raw_seed` -/

/-- The error raised by `cpp11::stop("Expected raw vector of length as
multiple of %d for 'seed'", len)`: it names the required modulus `len`. -/
structure SeedFormatError where
  modulus : ℕ
deriving DecidableEq, Repr

/-- The `std::memcpy` of the byte buffer into a vector of
`seed_data.size() / sizeof(int_type)` packed integers, little-endian (byte 0
least significant within each integer, the native layout of the supported
platforms). -/
def packLE (wb : ℕ) (bytes : List ℕ) : List ℕ :=
  (List.range (bytes.length / wb)).map fun i =>
    (List.range wb).foldr (fun j acc => acc * 256 + bytes.getD (wb * i + j) 0) 0

/-- `raw_seed<rng_state_type>(seed_data)` with
`len = sizeof(int_type) * rng_state_type::size()` = `wb * ss`:
fail unless the byte length is a positive exact multiple of `len`, else
reinterpret the bytes as packed integers. -/
def raw_seed (wb ss : ℕ) (seed_data : List ℕ) : Except SeedFormatError (List ℕ) :=
  let len := wb * ss
  if seed_data.length = 0 ∨ seed_data.length % len ≠ 0 then
    .error ⟨len⟩
  else
    .ok (packLE wb seed_data)

/-- A concrete, fully computable instantiation of the abstract operations,
used to evaluate the samplers at concrete inputs. -/
def envId : MathEnv where
  log := fun q => q
  sqrt := fun q => q
  pow := fun q _ => q
  cos := fun q => q
  tan := fun q => q
  pi := 1
  epsilon := 1 / 100
  normal01 := random_real
  exponentialMean := fun s scale =>
    let u := random_real s
    (-(u.1) * scale, u.2)

/-- A concrete deterministic-mode generator state whose stream is constantly
1/2. -/
def sDetHalf : RngState where
  stream := fun _ => 1 / 2
  pos := 0
  deterministic := true

/-- A concrete stochastic-mode generator state whose stream is constantly
1/2. -/
def sStoHalf : RngState where
  stream := fun _ => 1 / 2
  pos := 0
  deterministic := false

/-- A concrete instantiation of the operations under which every iteration
of the `gamma_large` loop rejects: `sqrt` is constantly 1, so `c = 1`, and
every standard-normal draw is `-2`, so `v_cbrt = 1 + 1 * (-2) <= 0`
forever. -/
def envReject : MathEnv where
  log := fun q => q
  sqrt := fun _ => 1
  pow := fun q _ => q
  cos := fun q => q
  tan := fun q => q
  pi := 1
  epsilon := 1 / 100
  normal01 := fun s => (-2, s)
  exponentialMean := fun s scale => (scale, s)

/-- A concrete stochastic stream for the Box–Muller comparison: draws
`0, 1/2, 1/4, 1/8, 1/8, ...`; the first draw lies below the machine
epsilon of `envId`. -/
def sBM : RngState where
  stream := fun n => if n = 0 then 0 else if n = 1 then 1 / 2
    else if n = 2 then 1 / 4 else 1 / 8
  pos := 0
  deterministic := false

end monty

namespace monty

/-- Helper: `Int.log 2` is determined by a binade bracketing. -/
theorem int_log_two_eq (q : ℚ) (L : ℤ) (h1 : (2 : ℚ) ^ L ≤ q)
    (h2 : q < 2 ^ (L + 1)) : Int.log 2 q = L := by
  have hq : 0 < q := lt_of_lt_of_le (zpow_pos (by norm_num) L) h1
  have ha : (2 : ℚ) ^ Int.log 2 q ≤ q :=
    Int.zpow_log_le_self (by norm_num) hq
  have hb : q < (2 : ℚ) ^ (Int.log 2 q + 1) :=
    Int.lt_zpow_succ_log_self (by norm_num) q
  have h3 : (2 : ℚ) ^ L < 2 ^ (Int.log 2 q + 1) := lt_of_le_of_lt h1 hb
  have h4 : (2 : ℚ) ^ Int.log 2 q < 2 ^ (L + 1) := lt_of_le_of_lt ha h2
  rw [zpow_lt_zpow_iff_right₀ (by norm_num : (1 : ℚ) < 2)] at h3 h4
  omega

/-- Helper: evaluate one rounding from a binade bracketing of the exact
value together with the rounded significand. -/
theorem rne_eval (p : ℕ) (q : ℚ) (L e n : ℤ)
    (h1 : (2 : ℚ) ^ L ≤ q) (h2 : q < 2 ^ (L + 1))
    (he : e = L - ((p : ℤ) - 1)) (hn : rnInt (q / 2 ^ e) = n) :
    roundNearestEven p q = (n : ℚ) * 2 ^ e := by
  have hq : 0 < q := lt_of_lt_of_le (zpow_pos (by norm_num) L) h1
  simp only [roundNearestEven]
  rw [if_neg (ne_of_gt hq), abs_of_pos hq, int_log_two_eq q L h1 h2, ← he, hn]

/-- Helper: a value less than halfway above an integer rounds down. -/
theorem rnInt_of_lt_half (x : ℚ) (n : ℤ) (h1 : (n : ℚ) ≤ x)
    (h2 : x - n < 1 / 2) : rnInt x = n := by
  have hfl : ⌊x⌋ = n := Int.floor_eq_iff.mpr ⟨h1, by linarith⟩
  simp only [rnInt]
  rw [hfl, if_pos h2]

/-- Helper: a value more than halfway above an integer rounds up. -/
theorem rnInt_of_gt_half (x : ℚ) (n : ℤ) (h1 : (n : ℚ) ≤ x)
    (h2 : 1 / 2 < x - n) (h3 : x < n + 1) : rnInt x = n + 1 := by
  have hfl : ⌊x⌋ = n := Int.floor_eq_iff.mpr ⟨h1, by linarith⟩
  simp only [rnInt]
  rw [hfl, if_neg (by linarith), if_pos h2]

/-- Helper: an exact halfway value above an odd integer rounds up (to the
even neighbour). -/
theorem rnInt_tie_of_odd (x : ℚ) (n : ℤ) (hx : x = n + 1 / 2)
    (hodd : ¬Even n) : rnInt x = n + 1 := by
  have hfl : ⌊x⌋ = n := Int.floor_eq_iff.mpr
    ⟨by rw [hx]; linarith, by rw [hx]; linarith⟩
  simp only [rnInt]
  rw [hfl, if_neg (by rw [hx]; linarith),
    if_neg (by rw [hx]; linarith), if_neg hodd]

/-- C1: the claimed open-interval law fails in the program's IEEE
arithmetic: at the top of the input domain three of the four conversions
return exactly 1.0.  `double int_to_real(uint64_t)` computes the exact value
`1 - 2^-54`, a tie between `1 - 2^-53` and `1.0` that rounds to the even
significand, i.e. to exactly `1.0`; each float path converts the 32-bit
integer `2^32 - 1` up to `2^32.0f` and then rounds `1 + 2^-33` to exactly
`1.0f`.  (The `uint32_t`-to-`double` path alone involves no rounding and
stays strictly inside (0,1).) -/
theorem int_to_real_boundary_one :
    int_to_real_double_uint64 (2 ^ 64 - 1) = 1 ∧
    int_to_real_float_uint64 (2 ^ 64 - 1) = 1 ∧
    int_to_real_float_uint32 (2 ^ 32 - 1) = 1 := by
  have hfl32cast : fl32 ((4294967295 : ℕ) : ℚ) = 4294967296 := by
    have hn : rnInt (((4294967295 : ℕ) : ℚ) / 2 ^ (8 : ℤ)) = 16777216 := by
      have : (((4294967295 : ℕ) : ℚ)) / 2 ^ (8 : ℤ) = 16777215 + 255 / 256 := by
        norm_num
      rw [this, show (16777216 : ℤ) = 16777215 + 1 from by norm_num]
      exact rnInt_of_gt_half _ 16777215 (by norm_num) (by norm_num) (by norm_num)
    have h := rne_eval 24 (((4294967295 : ℕ) : ℚ)) 31 8 16777216
      (by norm_num) (by norm_num) (by norm_num) hn
    rw [fl32, h]
    norm_num
  have hfl32one : fl32 ((4294967296 : ℚ) * TWOPOW32_INV) = 1 := by
    have harg : (4294967296 : ℚ) * TWOPOW32_INV = 1 := by
      norm_num [TWOPOW32_INV]
    have hn : rnInt ((1 : ℚ) / 2 ^ (-23 : ℤ)) = 8388608 := by
      have : (1 : ℚ) / 2 ^ (-23 : ℤ) = 8388608 := by norm_num
      rw [this]
      exact rnInt_of_lt_half _ 8388608 (by norm_num) (by norm_num)
    have h := rne_eval 24 1 0 (-23) 8388608
      (by norm_num) (by norm_num) (by norm_num) hn
    rw [harg, fl32, h]
    norm_num
  have hfl32half : fl32 (TWOPOW32_INV / 2) = 1 / 2 ^ 33 := by
    have hn : rnInt ((1 / 2 ^ 33 : ℚ) / 2 ^ (-56 : ℤ)) = 8388608 := by
      have : (1 / 2 ^ 33 : ℚ) / 2 ^ (-56 : ℤ) = 8388608 := by norm_num
      rw [this]
      exact rnInt_of_lt_half _ 8388608 (by norm_num) (by norm_num)
    have h := rne_eval 24 (1 / 2 ^ 33) (-33) (-56) 8388608
      (by norm_num) (by norm_num) (by norm_num) hn
    have harg : TWOPOW32_INV / 2 = (1 / 2 ^ 33 : ℚ) := by
      norm_num [TWOPOW32_INV]
    rw [harg, fl32, h]
    norm_num
  have hfl32sum : fl32 ((1 : ℚ) + 1 / 2 ^ 33) = 1 := by
    have hn : rnInt (((1 : ℚ) + 1 / 2 ^ 33) / 2 ^ (-23 : ℤ)) = 8388608 := by
      have : ((1 : ℚ) + 1 / 2 ^ 33) / 2 ^ (-23 : ℤ) = 8388608 + 1 / 1024 := by
        norm_num
      rw [this]
      exact rnInt_of_lt_half _ 8388608 (by norm_num) (by norm_num)
    have h := rne_eval 24 ((1 : ℚ) + 1 / 2 ^ 33) 0 (-23) 8388608
      (by norm_num) (by norm_num) (by norm_num) hn
    rw [fl32, h]
    norm_num
  have hfloat : fl32 (fl32 (fl32 ((4294967295 : ℕ) : ℚ) * TWOPOW32_INV) +
      fl32 (TWOPOW32_INV / 2)) = 1 := by
    rw [hfl32cast, hfl32one, hfl32half, hfl32sum]
  refine ⟨?_, ?_, ?_⟩
  · have hs : ((2 ^ 64 - 1 : ℕ) >>> 11 : ℕ) = 9007199254740991 := by
      rw [Nat.shiftRight_eq_div_pow]
      norm_num
    have hc : (((9007199254740991 : ℕ) : ℚ)) = 9007199254740991 := by
      norm_num
    have e1 : fl64 ((9007199254740991 : ℚ)) = 9007199254740991 := by
      have hn : rnInt ((9007199254740991 : ℚ) / 2 ^ (0 : ℤ)) =
          9007199254740991 := by
        have : (9007199254740991 : ℚ) / 2 ^ (0 : ℤ) = 9007199254740991 := by
          norm_num
        rw [this]
        exact rnInt_of_lt_half _ 9007199254740991 (by norm_num) (by norm_num)
      have h := rne_eval 53 9007199254740991 52 0 9007199254740991
        (by norm_num) (by norm_num) (by norm_num) hn
      rw [fl64, h]
      norm_num
    have e2 : fl64 ((9007199254740991 : ℚ) * TWOPOW53_INV_DOUBLE) =
        9007199254740991 / 9007199254740992 := by
      have harg : (9007199254740991 : ℚ) * TWOPOW53_INV_DOUBLE =
          9007199254740991 / 9007199254740992 := by
        norm_num [TWOPOW53_INV_DOUBLE]
      have hn : rnInt (((9007199254740991 : ℚ) / 9007199254740992) /
          2 ^ (-53 : ℤ)) = 9007199254740991 := by
        have : ((9007199254740991 : ℚ) / 9007199254740992) / 2 ^ (-53 : ℤ) =
            9007199254740991 := by norm_num
        rw [this]
        exact rnInt_of_lt_half _ 9007199254740991 (by norm_num) (by norm_num)
      have h := rne_eval 53 (9007199254740991 / 9007199254740992) (-1) (-53)
        9007199254740991 (by norm_num) (by norm_num) (by norm_num) hn
      rw [harg, fl64, h]
      norm_num
    have e3 : fl64 (TWOPOW53_INV_DOUBLE / 2) = 1 / 2 ^ 54 := by
      have harg : TWOPOW53_INV_DOUBLE / 2 = (1 / 2 ^ 54 : ℚ) := by
        norm_num [TWOPOW53_INV_DOUBLE]
      have hn : rnInt ((1 / 2 ^ 54 : ℚ) / 2 ^ (-106 : ℤ)) =
          4503599627370496 := by
        have : (1 / 2 ^ 54 : ℚ) / 2 ^ (-106 : ℤ) = 4503599627370496 := by
          norm_num
        rw [this]
        exact rnInt_of_lt_half _ 4503599627370496 (by norm_num) (by norm_num)
      have h := rne_eval 53 (1 / 2 ^ 54) (-54) (-106) 4503599627370496
        (by norm_num) (by norm_num) (by norm_num) hn
      rw [harg, fl64, h]
      norm_num
    have e4 : fl64 ((9007199254740991 : ℚ) / 9007199254740992 + 1 / 2 ^ 54) =
        1 := by
      have hn : rnInt (((9007199254740991 : ℚ) / 9007199254740992 +
          1 / 2 ^ 54) / 2 ^ (-53 : ℤ)) = 9007199254740992 := by
        have : ((9007199254740991 : ℚ) / 9007199254740992 + 1 / 2 ^ 54) /
            2 ^ (-53 : ℤ) = 9007199254740991 + 1 / 2 := by norm_num
        rw [this, show (9007199254740992 : ℤ) = 9007199254740991 + 1 from by
          norm_num]
        exact rnInt_tie_of_odd _ 9007199254740991 (by push_cast; ring)
          (by decide)
      have h := rne_eval 53 (9007199254740991 / 9007199254740992 + 1 / 2 ^ 54)
        (-1) (-53) 9007199254740992 (by norm_num) (by norm_num) (by norm_num)
        hn
      rw [fl64, h]
      norm_num
    show int_to_real_double_uint64 (2 ^ 64 - 1) = 1
    rw [int_to_real_double_uint64, hs, hc, e1, e2, e3, e4]
  · have hs : (((2 ^ 64 - 1 : ℕ) >>> 32) % 2 ^ 32 : ℕ) = 4294967295 := by
      rw [Nat.shiftRight_eq_div_pow]
      norm_num
    show int_to_real_float_uint64 (2 ^ 64 - 1) = 1
    rw [int_to_real_float_uint64]
    simp only [hs]
    exact hfloat
  · show int_to_real_float_uint32 (2 ^ 32 - 1) = 1
    rw [int_to_real_float_uint32, show ((2 ^ 32 - 1 : ℕ)) = 4294967295 from by
      norm_num]
    exact hfloat

/-- C3 counterexample: on the device backend the deterministic check of
`cauchy` is compiled out (`#ifndef __CUDA_ARCH__`), so with a deterministic
state `cauchy` does not trap: it consumes a draw and returns a value. -/
theorem cauchy_device_deterministic_returns :
    cauchy .device envId sDetHalf 0 1 = .ok (1 / 2, ⟨fun _ => 1 / 2, 1, true⟩) := by
  norm_num [cauchy, random_real, envId, sDetHalf]

/-- C3 amended: on the host backend, `cauchy` with a deterministic state
always fails with a `DomainError` and never returns a value; on the device
backend the check is compiled out, so nothing is guaranteed there. -/
theorem cauchy_host_deterministic_fails (env : MathEnv) (s : RngState)
    (location scale : ℚ) (h : s.deterministic = true) :
    cauchy .host env s location scale = .error (.domainError
      "Cannot use Cauchy distribution deterministically; it has no mean") := by
  unfold cauchy
  rw [h]

/-- Witness for the amended C3 at a concrete deterministic state. -/
theorem cauchy_host_deterministic_fails_witness :
    cauchy .host envId sDetHalf 3 7 = .error (.domainError
      "Cannot use Cauchy distribution deterministically; it has no mean") :=
  cauchy_host_deterministic_fails envId sDetHalf 3 7 rfl

/-- C10: `cauchy` performs no parameter validation: in stochastic mode, on
either backend, for every location and scale (zero and negative scales
included) it consumes exactly one uniform draw `U` and returns
`location + scale * tan(pi * U)`, never an error. -/
theorem cauchy_no_validation (b : Backend) (env : MathEnv) (s : RngState)
    (location scale : ℚ) (h : s.deterministic = false) :
    cauchy b env s location scale =
      .ok (location + scale * env.tan (env.pi * s.stream s.pos),
        { s with pos := s.pos + 1 }) := by
  cases b <;> simp [cauchy, random_real, h]

/-- Witness for C10 at scale 0 on the host backend. -/
theorem cauchy_no_validation_witness :
    cauchy .host envId sStoHalf 5 0 =
      .ok (5 + 0 * envId.tan (envId.pi * sStoHalf.stream sStoHalf.pos),
        { sStoHalf with pos := sStoHalf.pos + 1 }) :=
  cauchy_no_validation .host envId sStoHalf 5 0 rfl

/-- Helper: `gamma_scale` produces an error exactly when the validation
test `shape < 0 || scale < 0` fires. -/
theorem gamma_scale_error_char (b : Backend) (env : MathEnv) (fuel : ℕ)
    (s : RngState) (shape scale : ℚ) :
    (∃ e, gamma_scale b env fuel s shape scale = .error e) ↔
      shape < 0 ∨ scale < 0 := by
  unfold gamma_scale gamma_validate
  by_cases h : shape < 0 ∨ scale < 0
  · simp [h]
  · simp only [if_neg h]
    simp only [h, iff_false]
    intro ⟨e, he⟩
    split_ifs at he

/-- Helper: `gamma_rate` produces an error exactly when the validation test
fires on the derived scale `1 / rate`. -/
theorem gamma_rate_error_char (b : Backend) (env : MathEnv) (fuel : ℕ)
    (s : RngState) (shape rate : ℚ) :
    (∃ e, gamma_rate b env fuel s shape rate = .error e) ↔
      shape < 0 ∨ 1 / rate < 0 := by
  simp only [gamma_rate, gamma_validate]
  by_cases h : shape < 0 ∨ 1 / rate < 0
  · rw [if_pos h]
    exact ⟨fun _ => h, fun _ => ⟨_, rfl⟩⟩
  · rw [if_neg h]
    exact gamma_scale_error_char b env fuel s shape (1 / rate)

/-- C2: `gamma_scale` (and `gamma_rate` on its derived scale `1/rate`)
raises a configuration error if and only if `0 ≤ shape ∧ 0 ≤ scale` fails;
`gamma(shape = -1, scale = 1)` fails as a thrown exception on the host
backend and as an unrecoverable fatal trap on the device backend; for every
`shape ≥ 0` and `scale ≥ 0` validation passes without error. -/
theorem gamma_validation_iff (b : Backend) (env : MathEnv) (fuel : ℕ)
    (s : RngState) (shape scale rate : ℚ) :
    ((∃ e, gamma_scale b env fuel s shape scale = .error e) ↔
      ¬(0 ≤ shape ∧ 0 ≤ scale)) ∧
    ((∃ e, gamma_rate b env fuel s shape rate = .error e) ↔
      ¬(0 ≤ shape ∧ 0 ≤ 1 / rate)) ∧
    gamma_scale .host env fuel s (-1) 1 = .error (.domainError
      "Invalid call to gamma with shape = %g, scale = %g") ∧
    gamma_scale .device env fuel s (-1) 1 = .error (.fatalTrap
      "Invalid call to gamma with shape = %g, scale = %g") := by
  refine ⟨?_, ?_, ?_, ?_⟩
  · rw [gamma_scale_error_char, not_and_or, not_le, not_le]
  · rw [gamma_rate_error_char, not_and_or, not_le, not_le]
  · norm_num [gamma_scale, gamma_validate, fatal_error]
  · norm_num [gamma_scale, gamma_validate, fatal_error]

/-- Helper: in deterministic mode, a validated `gamma_scale` call returns
`shape * scale` and leaves the state untouched (the `shape == 0 || scale == 0`
early return and the `gamma_deterministic` branch agree on this form). -/
theorem gamma_scale_deterministic_spec (b : Backend) (env : MathEnv)
    (fuel : ℕ) (s : RngState) (shape scale : ℚ)
    (hsh : 0 ≤ shape) (hsc : 0 ≤ scale) (hdet : s.deterministic = true) :
    gamma_scale b env fuel s shape scale = .ok (some (shape * scale, s)) := by
  have hv : ¬(shape < 0 ∨ scale < 0) := by
    push_neg
    exact ⟨hsh, hsc⟩
  unfold gamma_scale gamma_validate
  rw [if_neg hv]
  by_cases h0 : shape = 0 ∨ scale = 0
  · rw [if_pos h0]
    rcases h0 with h | h <;> simp [h]
  · rw [if_neg h0]
    simp [hdet, gamma_deterministic]

/-- C4: for every `shape ≥ 0` and `scale ≥ 0`, `gamma_scale` on a state
whose deterministic flag is true returns exactly `shape * scale`. -/
theorem gamma_scale_deterministic_value (b : Backend) (env : MathEnv)
    (fuel : ℕ) (s : RngState) (shape scale : ℚ)
    (hsh : 0 ≤ shape) (hsc : 0 ≤ scale) (hdet : s.deterministic = true) :
    gamma_scale b env fuel s shape scale = .ok (some (shape * scale, s)) :=
  gamma_scale_deterministic_spec b env fuel s shape scale hsh hsc hdet

/-- Witness for C4: `gamma(shape = 3, scale = 2)` in deterministic mode is
exactly 6, with the state unchanged. -/
theorem gamma_scale_deterministic_value_witness :
    gamma_scale .host envId 0 sDetHalf 3 2 = .ok (some (6, sDetHalf)) := by
  have h := gamma_scale_deterministic_value .host envId 0 sDetHalf 3 2
    (by norm_num) (by norm_num) rfl
  norm_num at h
  exact h

/-- C8: for every valid `shape` and `scale`, a deterministic-mode
`gamma_scale` call consumes no draws: the generator state after the call is
exactly the state before it. -/
theorem gamma_scale_deterministic_frame (b : Backend) (env : MathEnv)
    (fuel : ℕ) (s : RngState) (shape scale : ℚ)
    (hsh : 0 ≤ shape) (hsc : 0 ≤ scale) (hdet : s.deterministic = true) :
    ∃ y, gamma_scale b env fuel s shape scale = .ok (some (y, s)) :=
  ⟨shape * scale, gamma_scale_deterministic_spec b env fuel s shape scale hsh hsc hdet⟩

/-- Witness for C8 at `shape = 5`, `scale = 4`. -/
theorem gamma_scale_deterministic_frame_witness :
    ∃ y, gamma_scale .host envId 0 sDetHalf 5 4 = .ok (some (y, sDetHalf)) :=
  gamma_scale_deterministic_frame .host envId 0 sDetHalf 5 4
    (by norm_num) (by norm_num) rfl

/-- C5: in stochastic mode, a validated `gamma_scale` call dispatches on the
shape as specified: result 0 when `shape == 0 || scale == 0`; for
`0 < shape < 1` the large-shape generator at `shape + 1` times
`U ^ (1/shape)` for one uniform draw `U`, times `scale`; for `shape == 1` an
exponential draw with mean `scale`; for `shape > 1` the large-shape
rejection loop times `scale`. -/
theorem gamma_scale_stochastic_dispatch (b : Backend) (env : MathEnv)
    (fuel : ℕ) (s : RngState) (shape scale : ℚ)
    (hsh : 0 ≤ shape) (hsc : 0 ≤ scale) (hdet : s.deterministic = false) :
    (shape = 0 ∨ scale = 0 →
      gamma_scale b env fuel s shape scale = .ok (some (0, s))) ∧
    (0 < shape → shape < 1 → scale ≠ 0 →
      gamma_scale b env fuel s shape scale =
        .ok ((gamma_large env fuel (random_real s).2 (shape + 1)).map
          fun p => (p.1 * env.pow (random_real s).1 (1 / shape) * scale, p.2))) ∧
    (shape = 1 → scale ≠ 0 →
      gamma_scale b env fuel s shape scale =
        .ok (some (env.exponentialMean s scale))) ∧
    (1 < shape → scale ≠ 0 →
      gamma_scale b env fuel s shape scale =
        .ok ((gamma_large env fuel s shape).map fun p => (p.1 * scale, p.2))) := by
  have hv : ¬(shape < 0 ∨ scale < 0) := by
    push_neg
    exact ⟨hsh, hsc⟩
  refine ⟨?_, ?_, ?_, ?_⟩
  · intro h0
    unfold gamma_scale gamma_validate
    rw [if_neg hv, if_pos h0]
  · intro h1 h2 h3
    have h0 : ¬(shape = 0 ∨ scale = 0) := by
      push_neg
      exact ⟨ne_of_gt h1, h3⟩
    unfold gamma_scale gamma_validate
    rw [if_neg hv, if_neg h0]
    simp only [hdet, Bool.false_eq_true, if_false, if_pos h2]
    unfold gamma_small
    cases hgl : gamma_large env fuel (random_real s).2 (shape + 1) <;>
      simp [hgl]
  · intro h1 h3
    have h0 : ¬(shape = 0 ∨ scale = 0) := by
      push_neg
      exact ⟨by rw [h1]; norm_num, h3⟩
    have h2 : ¬shape < 1 := by
      rw [h1]
      norm_num
    unfold gamma_scale gamma_validate
    rw [if_neg hv, if_neg h0]
    simp only [hdet, Bool.false_eq_true, if_false, if_neg h2, if_pos h1]
  · intro h1 h3
    have h0 : ¬(shape = 0 ∨ scale = 0) := by
      push_neg
      exact ⟨by intro h; rw [h] at h1; norm_num at h1, h3⟩
    have h2 : ¬shape < 1 := by linarith
    have h4 : ¬shape = 1 := by linarith
    unfold gamma_scale gamma_validate
    rw [if_neg hv, if_neg h0]
    simp only [hdet, Bool.false_eq_true, if_false, if_neg h2, if_neg h4]

/-- Witness for C5: the small-shape case at `shape = 1/2`, `scale = 1`. -/
theorem gamma_scale_stochastic_dispatch_witness :
    gamma_scale .host envId 1 sStoHalf (1 / 2) 1 =
      .ok ((gamma_large envId 1 (random_real sStoHalf).2 (1 / 2 + 1)).map
        fun p => (p.1 * envId.pow (random_real sStoHalf).1 (1 / (1 / 2)) * 1, p.2)) :=
  (gamma_scale_stochastic_dispatch .host envId 1 sStoHalf (1 / 2) 1
    (by norm_num) (by norm_num) rfl).2.1 (by norm_num) (by norm_num) (by norm_num)

/-- C6: for `shape > 1`, `gamma_scale` follows the Marsaglia–Tsang loop
exactly, stated in the claim's notation: `d = shape - 1/3`,
`c = 1/sqrt(9*d)`; each iteration draws a standard normal `X`, continues
whenever `v = (1 + c*X)^3 ≤ 0`, otherwise draws a uniform `U` and accepts
exactly when `U < 1 - 0.0331*X^4` or `ln U < X^2/2 + d*(1 - v + ln v)`,
yielding `d*v` and hence `d*v*scale` from `gamma_scale`; and the loop has no
hard iteration cap: exhausting any finite observation fuel yields no value
(never a fabricated default), and under the all-rejecting operations
`envReject` the loop runs beyond every finite bound. -/
theorem gamma_large_marsaglia (b : Backend) (env : MathEnv) (s : RngState)
    (shape : ℚ) (fuel : ℕ) (hs : 1 < shape) :
    (gamma_large env fuel s shape =
      gamma_large_iter env (shape - 1 / 3)
        (1 / env.sqrt (9 * (shape - 1 / 3))) fuel s) ∧
    (∀ d c t, gamma_large_iter env d c (fuel + 1) t =
      (if (1 + c * (env.normal01 t).1) ^ 3 ≤ 0 then
        gamma_large_iter env d c fuel (env.normal01 t).2
      else if (random_real (env.normal01 t).2).1 <
            1 - 0.0331 * (env.normal01 t).1 ^ 4 ∨
          env.log (random_real (env.normal01 t).2).1 <
            (env.normal01 t).1 ^ 2 / 2 +
              d * (1 - (1 + c * (env.normal01 t).1) ^ 3 +
                env.log ((1 + c * (env.normal01 t).1) ^ 3)) then
        some (d * (1 + c * (env.normal01 t).1) ^ 3,
          (random_real (env.normal01 t).2).2)
      else
        gamma_large_iter env d c fuel (random_real (env.normal01 t).2).2)) ∧
    (∀ scale r t, s.deterministic = false → 0 < scale →
      gamma_large env fuel s shape = some (r, t) →
      gamma_scale b env fuel s shape scale = .ok (some (r * scale, t))) ∧
    (∀ d c t, gamma_large_iter env d c 0 t = none) ∧
    (∀ n t, gamma_large envReject n t shape = none) := by
  refine ⟨rfl, ?_, ?_, fun d c t => rfl, ?_⟩
  · intro d c t
    rw [gamma_large_iter]
    have e3 : ∀ a : ℚ, a * a * a = a ^ 3 := fun a => by ring
    have epow : ∀ a : ℚ, (a ^ 3 ≤ 0) = (a ≤ 0) :=
      fun a => propext (Odd.pow_nonpos_iff (by decide))
    simp only [e3, epow]
    have e4 : (0.0331 : ℚ) * ((env.normal01 t).1 * (env.normal01 t).1) *
        ((env.normal01 t).1 * (env.normal01 t).1) =
        0.0331 * (env.normal01 t).1 ^ 4 := by ring
    have e5 : (0.5 : ℚ) * ((env.normal01 t).1 * (env.normal01 t).1) =
        (env.normal01 t).1 ^ 2 / 2 := by ring
    rw [e4, e5]
  · intro scale r t hdet hscale hlarge
    have h0 : ¬(shape = 0 ∨ scale = 0) := by
      push_neg
      exact ⟨by intro h; rw [h] at hs; norm_num at hs, ne_of_gt hscale⟩
    have hv : ¬(shape < 0 ∨ scale < 0) := by
      push_neg
      exact ⟨by linarith, le_of_lt hscale⟩
    have h2 : ¬shape < 1 := by linarith
    have h4 : ¬shape = 1 := by linarith
    unfold gamma_scale gamma_validate
    rw [if_neg hv, if_neg h0]
    simp only [hdet, Bool.false_eq_true, if_false, if_neg h2, if_neg h4]
    rw [hlarge]
    rfl
  · have key : ∀ m u, gamma_large_iter envReject (shape - 1 / 3) 1 m u = none := by
      intro m
      induction m with
      | zero => intro u; rfl
      | succ k ih =>
        intro u
        rw [gamma_large_iter]
        have hc : (1 : ℚ) + 1 * (envReject.normal01 u).1 ≤ 0 := by
          norm_num [envReject]
        simp only [if_pos hc]
        exact ih (envReject.normal01 u).2
    intro n t
    have hsqrt : (1 : ℚ) / envReject.sqrt (9 * (shape - 1 / 3)) = 1 := by
      norm_num [envReject]
    simp only [gamma_large]
    rw [hsqrt]
    exact key n t

/-- Witness for C6 at `shape = 2`. -/
theorem gamma_large_marsaglia_witness :
    gamma_large envId 0 sStoHalf 2 =
      gamma_large_iter envId (2 - 1 / 3) (1 / envId.sqrt (9 * (2 - 1 / 3)))
        0 sStoHalf :=
  (gamma_large_marsaglia .host envId sStoHalf 2 0 (by norm_num)).1

/-- C7 counterexample: the source redraws BOTH uniforms on every rejected
iteration of the do-while loop, whereas the claim's procedure ("draw U1
rejecting while U1 ≤ epsilon, THEN draw U2") redraws only U1.  On the
stream `0, 1/2, 1/4, 1/8, ...` (first draw below epsilon) the two
procedures consume different draws and return different values. -/
theorem box_muller_claim_counterexample :
    (random_normal_box_muller envId 2 sBM).map Prod.fst = some (-(1 / 8)) ∧
    (box_muller_claim_model envId 2 sBM).map Prod.fst = some (-(1 / 2)) ∧
    (random_normal_box_muller envId 2 sBM).map Prod.fst ≠
      (box_muller_claim_model envId 2 sBM).map Prod.fst := by
  refine ⟨?_, ?_, ?_⟩ <;>
    norm_num [random_normal_box_muller, box_muller_claim_model, random_real,
      envId, sBM]

/-- C7 amended: `random_normal_box_muller` rejects pairs — both `U1` and
`U2` are redrawn on every rejected iteration.  Whenever it returns a value,
there is an iteration count `k` such that the `U1` of every earlier
iteration was at or below the machine epsilon (those boundary draws were
resampled internally, never surfaced as failures), the accepted `U1` is
strictly above epsilon (so `log` is never evaluated at an argument at or
below epsilon), and the result is `sqrt(-2 log U1) * cos(2 pi U2)` for the
accepted pair, the state having consumed exactly `2 * (k + 1)` draws. -/
theorem box_muller_characterization (env : MathEnv) (n : ℕ) (s : RngState)
    (r : ℚ) (t : RngState)
    (h : random_normal_box_muller env n s = some (r, t)) :
    ∃ k, (∀ j < k, s.stream (s.pos + 2 * j) ≤ env.epsilon) ∧
      env.epsilon < s.stream (s.pos + 2 * k) ∧
      r = env.sqrt (-2 * env.log (s.stream (s.pos + 2 * k))) *
        env.cos (2 * env.pi * s.stream (s.pos + 2 * k + 1)) ∧
      t = { s with pos := s.pos + 2 * k + 2 } := by
  induction n generalizing s with
  | zero => simp [random_normal_box_muller] at h
  | succ m ih =>
    rw [random_normal_box_muller] at h
    simp only [random_real] at h
    by_cases hu : s.stream s.pos ≤ env.epsilon
    · rw [if_pos hu] at h
      obtain ⟨k, hrej, hacc, hr, ht⟩ := ih _ h
      refine ⟨k + 1, ?_, ?_, ?_, ?_⟩
      · intro j hj
        cases j with
        | zero => simpa using hu
        | succ i =>
          have hhyp := hrej i (by omega)
          simp only at hhyp
          rw [show s.pos + 2 * (i + 1) = s.pos + 1 + 1 + 2 * i from by omega]
          exact hhyp
      · have hhyp := hacc
        simp only at hhyp
        rw [show s.pos + 2 * (k + 1) = s.pos + 1 + 1 + 2 * k from by omega]
        exact hhyp
      · have hhyp := hr
        simp only at hhyp
        rw [show s.pos + 2 * (k + 1) = s.pos + 1 + 1 + 2 * k from by omega]
        exact hhyp
      · have hhyp := ht
        simp only at hhyp
        rw [show s.pos + 2 * (k + 1) + 2 = s.pos + 1 + 1 + 2 * k + 2 from by omega]
        exact hhyp
    · rw [if_neg hu] at h
      rw [Option.some.injEq, Prod.mk.injEq] at h
      refine ⟨0, fun j hj => absurd hj (by omega), ?_, ?_, ?_⟩
      · rw [show s.pos + 2 * 0 = s.pos from by omega]
        exact lt_of_not_le hu
      · rw [show s.pos + 2 * 0 = s.pos from by omega]
        exact h.1.symm
      · rw [show s.pos + 2 * 0 + 2 = s.pos + 1 + 1 from by omega]
        exact h.2.symm

/-- Witness for the amended C7 on the concrete stream `sBM`. -/
theorem box_muller_characterization_witness :
    ∃ k, (∀ j < k, sBM.stream (sBM.pos + 2 * j) ≤ envId.epsilon) ∧
      envId.epsilon < sBM.stream (sBM.pos + 2 * k) ∧
      (-(1 / 8) : ℚ) =
        envId.sqrt (-2 * envId.log (sBM.stream (sBM.pos + 2 * k))) *
          envId.cos (2 * envId.pi * sBM.stream (sBM.pos + 2 * k + 1)) ∧
      ({ sBM with pos := 4 } : RngState) = { sBM with pos := sBM.pos + 2 * k + 2 } :=
  box_muller_characterization envId 2 sBM (-(1 / 8)) { sBM with pos := 4 }
    (by norm_num [random_normal_box_muller, random_real, envId, sBM])

/-- C9: `raw_seed` fails, naming the required modulus
`width_bytes * state_size`, exactly when the byte buffer's length is zero or
not an exact multiple of `width_bytes * state_size`; on every positive exact
multiple it succeeds with `length / width_bytes` packed integers, i.e.
`length / (width_bytes * state_size)` streams' worth of state integers. -/
theorem raw_seed_spec (wb ss : ℕ) (bytes : List ℕ)
    (hwb : 0 < wb) (hss : 0 < ss) :
    ((∃ e, raw_seed wb ss bytes = .error e) ↔
      (bytes.length = 0 ∨ bytes.length % (wb * ss) ≠ 0)) ∧
    (∀ e, raw_seed wb ss bytes = .error e → e.modulus = wb * ss) ∧
    (bytes.length ≠ 0 → bytes.length % (wb * ss) = 0 →
      ∃ seed, raw_seed wb ss bytes = .ok seed ∧
        seed.length = bytes.length / wb ∧
        seed.length = bytes.length / (wb * ss) * ss) := by
  refine ⟨?_, ?_, ?_⟩
  · unfold raw_seed
    by_cases h : bytes.length = 0 ∨ bytes.length % (wb * ss) ≠ 0
    · rw [if_pos h]
      exact ⟨fun _ => h, fun _ => ⟨_, rfl⟩⟩
    · rw [if_neg h]
      push_neg at h
      constructor
      · rintro ⟨e, he⟩
        exact absurd he (by simp)
      · intro hcontra
        rcases hcontra with h0 | hmod
        · exact absurd h0 h.1
        · exact absurd h.2 hmod
  · intro e he
    simp only [raw_seed] at he
    split_ifs at he
    rw [Except.error.injEq] at he
    rw [← he]
  · intro h1 h2
    have h : ¬(bytes.length = 0 ∨ bytes.length % (wb * ss) ≠ 0) := by
      push_neg
      exact ⟨h1, h2⟩
    obtain ⟨q, hq⟩ := Nat.dvd_of_mod_eq_zero h2
    refine ⟨packLE wb bytes, ?_, ?_, ?_⟩
    · unfold raw_seed
      rw [if_neg h]
    · simp [packLE]
    · simp only [packLE, List.length_map, List.length_range]
      rw [hq]
      have e1 : wb * ss * q / wb = ss * q := by
        rw [mul_assoc]
        exact Nat.mul_div_cancel_left _ hwb
      have e2 : wb * ss * q / (wb * ss) = q :=
        Nat.mul_div_cancel_left _ (Nat.mul_pos hwb hss)
      rw [e1, e2, Nat.mul_comm]

/-- Witness for C9 at `width_bytes = 8`, `state_size = 4` (the
xoshiro256 layout) on a 32-byte buffer: one stream's worth of 4 packed
integers. -/
theorem raw_seed_spec_witness :
    ((∃ e, raw_seed 8 4 (List.replicate 32 0) = .error e) ↔
      ((List.replicate 32 (0 : ℕ)).length = 0 ∨
        (List.replicate 32 (0 : ℕ)).length % (8 * 4) ≠ 0)) ∧
    (∀ e, raw_seed 8 4 (List.replicate 32 0) = .error e → e.modulus = 8 * 4) ∧
    ((List.replicate 32 (0 : ℕ)).length ≠ 0 →
      (List.replicate 32 (0 : ℕ)).length % (8 * 4) = 0 →
      ∃ seed, raw_seed 8 4 (List.replicate 32 0) = .ok seed ∧
        seed.length = (List.replicate 32 (0 : ℕ)).length / 8 ∧
        seed.length = (List.replicate 32 (0 : ℕ)).length / (8 * 4) * 4) :=
  raw_seed_spec 8 4 (List.replicate 32 0) (by norm_num) (by norm_num)

end monty
